import Mathlib

/-!
Verification of the feedback-analysis pipeline (`src/core/services.py` and the
CSV ingestion loop of `src/core/routes.py`), shallowly embedded in Lean.

Python strings are modelled as Lean `String`; Python's `in` substring test,
`str.lower`, `str.strip`, `str.split('\n')`, `str.startswith` and
`str.isdigit` are modelled below.  `str.lower` is modelled on the ASCII
letters (the only cased characters occurring in this code base's keyword
tables), and `str.strip`/`str.isdigit` on the whitespace/digit characters
that can occur in this pipeline's data.
-/

namespace Feedback

/-- Whitespace characters removed by Python `str.strip`. -/
def isPySpace (c : Char) : Bool :=
  c == ' ' || c == '\t' || c == '\n' || c == '\r' ||
  c == Char.ofNat 11 || c == Char.ofNat 12 || c == '　' || c == Char.ofNat 160

/-- Python `str.strip()`: drop leading and trailing whitespace. -/
def pyStrip (s : String) : String :=
  ⟨((s.data.dropWhile isPySpace).reverse.dropWhile isPySpace).reverse⟩

/-- Python `str.lower()` (ASCII case folding). -/
def strLower (s : String) : String :=
  ⟨s.data.map Char.toLower⟩

/-- Test that `l` starts with `needle` (Python `str.startswith`). -/
def startsWithCh : List Char → List Char → Bool
  | [], _ => true
  | _ :: _, [] => false
  | a :: as, b :: bs => a == b && startsWithCh as bs

/-- Test that `needle` occurs as a contiguous sublist of `l`. -/
def occursIn (needle : List Char) : List Char → Bool
  | [] => needle.isEmpty
  | b :: bs => startsWithCh needle (b :: bs) || occursIn needle bs

/-- Python `needle in hay` on strings. -/
def strIn (needle hay : String) : Bool :=
  occursIn needle.data hay.data

/-- Python `s.startswith(pre)`. -/
def pyStartsWith (s pre : String) : Bool :=
  startsWithCh pre.data s.data

/-- Python `str.isdigit()`: non-empty and all characters decimal digits. -/
def pyIsDigit (s : String) : Bool :=
  !s.data.isEmpty && s.data.all Char.isDigit

/-! ## FeedbackClassifier (`src/core/services.py`, lines 7-50) -/

/-- The constant `CATEGORY_KEYWORDS` of `services.py`, as an ordered association list
(Python dicts preserve insertion order). -/
def CATEGORY_KEYWORDS : List (String × List String) := [
  ("功能使用问题", ["怎么用", "如何", "使用", "操作", "不会", "找不到", "在哪", "怎么", "无法使用", "不能用", "用不了", "打不开", "进不去"]),
  ("网络连接异常", ["网络", "连接", "断开", "超时", "加载", "刷新", "联网", "网速", "掉线", "连不上", "服务器", "请求失败"]),
  ("校对功能缺陷", ["校对", "纠错", "错别字", "语法", "标点", "修改", "改错", "检测", "识别", "漏检", "误报", "不准", "准确率"]),
  ("会员权限问题", ["会员", "VIP", "权限", "付费", "订阅", "开通", "续费", "到期", "免费", "次数", "限制", "额度", "充值"]),
  ("功能建议与反馈", ["建议", "希望", "能否", "可以增加", "想要", "需要", "功能", "新增", "添加", "支持", "优化", "改进", "体验"]),
  ("其他", [])
]

/-- Python `sum(1 for kw in keywords if kw.lower() in text_lower)`. -/
def hitCount (keywords : List String) (textLower : String) : Nat :=
  (keywords.filter (fun kw => strIn (strLower kw) textLower)).length

/-- The `scores` dict built by `FeedbackClassifier.classify`: non-fallback
categories with a positive keyword-hit count, in taxonomy definition order. -/
def scoresFor (content : String) : List (String × Nat) :=
  (CATEGORY_KEYWORDS.filter (fun p => !(p.1 == "其他"))).filterMap
    (fun p =>
      let s := hitCount p.2 (strLower content)
      if 0 < s then some (p.1, s) else none)

/-- Python `max(scores, key=scores.get)` over an insertion-ordered dict:
the first entry attaining the maximal value. -/
def pickMax : List (String × Nat) → Option (String × Nat)
  | [] => none
  | p :: rest =>
    match pickMax rest with
    | none => some p
    | some q => if p.2 < q.2 then some q else some p

/-- Method `FeedbackClassifier.classify` (`services.py`, lines 23-46). -/
def classify (content : String) : String :=
  if content = "" then "其他"
  else
    match pickMax (scoresFor content) with
    | some q => q.1
    | none => "其他"

/-! ## UserTypeParser (`src/core/services.py`, lines 53-71) -/

def MEMBER_KEYWORDS : List String := ["会员", "vip", "premium", "付费", "pro"]

def NORMAL_KEYWORDS : List String := ["普通", "免费", "free", "normal", "basic"]

/-- Method `UserTypeParser.parse` (`services.py`, lines 59-71). -/
def parse (userTypeStr : String) : String :=
  if userTypeStr = "" then "未知"
  else
    let lower := strLower userTypeStr
    if MEMBER_KEYWORDS.any (fun kw => strIn kw lower) then "会员"
    else if NORMAL_KEYWORDS.any (fun kw => strIn kw lower) then "普通用户"
    else userTypeStr

/-! ## CSVColumnDetector (`src/core/services.py`, lines 74-132) -/

def CONTENT_KEYWORDS : List String :=
  ["内容", "content", "feedback", "message", "描述", "意见", "评论", "反馈内容"]

def EXCLUDE_KEYWORDS : List String := ["id", "编号", "序号", "时间", "日期", "date"]

def USER_TYPE_KEYWORDS : List String :=
  ["用户类型", "会员", "user_type", "身份", "等级", "会员类型", "用户身份"]

def ATTACHMENT_KEYWORDS : List String :=
  ["附件列表", "用户附件", "attachment", "附件链接", "文件链接"]

def ATTACHMENT_EXCLUDE_KEYWORDS : List String := ["数量", "count", "num", "个数", "数目"]

/-- Python `header.lower().strip()` as computed at the top of the detection loop. -/
def headerLower (h : String) : String := pyStrip (strLower h)

/-- Python `header.strip().replace(' ', '').replace('　', '').replace('\t', '')`:
the cleaned header used by attachment detection (note: not lower-cased). -/
def cleanHeader (h : String) : String :=
  ⟨(pyStrip h).data.filter (fun c => !(c == ' ' || c == '　' || c == '\t'))⟩

/-- Flag `should_exclude` for the content column. -/
def shouldExclude (h : String) : Bool :=
  EXCLUDE_KEYWORDS.any (fun ex => strIn ex (headerLower h))

/-- The condition under which the detection loop assigns the content column. -/
def contentHit (h : String) : Bool :=
  !shouldExclude h && CONTENT_KEYWORDS.any (fun kw => strIn kw (headerLower h))

/-- The condition under which the detection loop assigns the user-type column. -/
def userTypeHit (h : String) : Bool :=
  USER_TYPE_KEYWORDS.any (fun kw => strIn kw (headerLower h))

/-- The condition under which the detection loop assigns the attachment column:
exclusion is tested against the cleaned header, the keyword against the
cleaned or the raw header (both case-sensitively). -/
def attachmentHit (h : String) : Bool :=
  !(ATTACHMENT_EXCLUDE_KEYWORDS.any (fun ex => strIn ex (cleanHeader h))) &&
  ATTACHMENT_KEYWORDS.any (fun kw => strIn kw (cleanHeader h) || strIn kw h)

/-- The result of `CSVColumnDetector.detect`: role name → optional column index. -/
structure ColumnRoleMap where
  content : Option Nat
  user_type : Option Nat
  attachment : Option Nat
deriving DecidableEq, Repr

/-- One iteration of the detection loop at index `i` over header `h`. -/
def detectStep (i : Nat) (h : String) (st : ColumnRoleMap) : ColumnRoleMap :=
  { content := match st.content with
      | some c => some c
      | none => if contentHit h then some i else none
    user_type := match st.user_type with
      | some c => some c
      | none => if userTypeHit h then some i else none
    attachment := match st.attachment with
      | some c => some c
      | none => if attachmentHit h then some i else none }

/-- The detection loop: `for i, header in enumerate(headers)`. -/
def detectAux : Nat → List String → ColumnRoleMap → ColumnRoleMap
  | _, [], st => st
  | i, h :: hs, st => detectAux (i + 1) hs (detectStep i h st)

/-- Method `CSVColumnDetector.detect` (`services.py`, lines 89-132). -/
def detect (headers : List String) : ColumnRoleMap :=
  detectAux 0 headers ⟨none, none, none⟩

/-! ## KanbanCategoryGenerator (`src/core/services.py`, lines 135-205) -/

/-- The constant `KEYWORD_TO_CATEGORY`: ordered list of (keyword-set, label) pairs. -/
def KEYWORD_TO_CATEGORY : List (List String × String) := [
  (["bug", "崩溃", "闪退", "卡死", "报错", "异常"], "技术问题"),
  (["慢", "卡顿", "加载", "性能"], "性能问题"),
  (["界面", "UI", "样式", "显示", "布局"], "界面问题"),
  (["功能", "新增", "添加", "支持", "希望", "建议"], "功能需求"),
  (["优化", "改进", "提升", "增强"], "优化建议"),
  (["体验", "使用", "操作", "不方便", "麻烦"], "体验问题"),
  (["满意", "好用", "不错", "赞"], "正面反馈"),
  (["会员", "VIP", "付费", "订阅", "价格"], "会员相关"),
  (["校对", "纠错", "错别字", "语法"], "校对功能")
]

/-- Python `scores[name] = scores.get(name, 0) + sc` on an insertion-ordered
dict: update in place if present, else append. -/
def addScore : List (String × Nat) → String → Nat → List (String × Nat)
  | [], name, sc => [(name, sc)]
  | (n, v) :: rest, name, sc =>
    if n = name then (n, v + sc) :: rest else (n, v) :: addScore rest name sc

/-- Python `" ".join(contents).lower()`. -/
def allText (contents : List String) : String :=
  strLower (String.intercalate " " contents)

/-- The body of the scoring loop of `generate_category_name`: `score` is the
keyword-hit count of the entry's keyword-set; entries with positive score are
accumulated into the dict. -/
def kanbanStep (textLower : String) (acc : List (String × Nat))
    (p : List String × String) : List (String × Nat) :=
  if 0 < hitCount p.1 textLower then addScore acc p.2 (hitCount p.1 textLower) else acc

/-- The `scores` dict built by `generate_category_name` over the joined blob. -/
def kanbanScores (textLower : String) : List (String × Nat) :=
  KEYWORD_TO_CATEGORY.foldl (kanbanStep textLower) []

/-- The score entry a single (keyword-set, label) pair contributes. -/
def kanbanEntry (textLower : String) (p : List String × String) :
    Option (String × Nat) :=
  if 0 < hitCount p.1 textLower then some (p.2, hitCount p.1 textLower) else none

/-- The scoring entries in taxonomy definition order; proved equal to
`kanbanScores` (every label occurs in exactly one keyword-set of
`KEYWORD_TO_CATEGORY`, so the dict accumulation never merges two entries). -/
def kanbanOrderedScores (textLower : String) : List (String × Nat) :=
  KEYWORD_TO_CATEGORY.filterMap (kanbanEntry textLower)

/-- Method `KanbanCategoryGenerator._extract_key_phrase` (`services.py`, lines
184-200).  Its word-frequency loop has no effect (its body is `pass`), so the
function always returns the fixed fallback label. -/
def extract_key_phrase (_contents : List String) : String := "重点反馈"

/-- Method `KanbanCategoryGenerator.generate_category_name` (`services.py`,
lines 158-182). -/
def generate_category_name (contents : List String) : String :=
  if contents = [] then "新分类"
  else
    match pickMax (kanbanScores (allText contents)) with
    | some q => q.1
    | none => extract_key_phrase contents

/-! ## Ingestion row loop (`src/core/routes.py`, lines 109-150) -/

/-- A normalized feedback record as assembled by `upload_csv`
(`original_row` is kept as the raw cell list; its JSON serialization for
storage is not modelled). -/
structure FeedbackRecord where
  user_type : String
  content : String
  category : String
  attachment : String
  original_row : List String
deriving DecidableEq, Repr

/-- Helper for `pySplitNl`: `cur` holds the reversed current chunk. -/
def splitNlAux (cur : List Char) : List Char → List String
  | [] => [⟨cur.reverse⟩]
  | c :: cs => if c == '\n' then ⟨cur.reverse⟩ :: splitNlAux [] cs
               else splitNlAux (c :: cur) cs

/-- Python `s.split('\n')`. -/
def pySplitNl (s : String) : List String := splitNlAux [] s.data

/-- Python `'\n'.join(l)`. -/
def joinNl : List String → String
  | [] => ""
  | [s] => s
  | s :: rest => s ++ "\n" ++ joinNl rest

/-- The stripped lines of the raw attachment cell that are non-empty and
start with `http://` or `https://` (`routes.py`, lines 129-134). -/
def urlLines (raw : String) : List String :=
  ((pySplitNl raw).map pyStrip).filter
    (fun l => !(l == "") && (pyStartsWith l "http://" || pyStartsWith l "https://"))

/-- The attachment-extraction logic of `upload_csv` (`routes.py`, lines
128-140), applied to the already-stripped cell `raw`. -/
def extractAttachment (raw : String) : String :=
  if raw = "" then ""
  else if !(urlLines raw).isEmpty then joinNl (urlLines raw)
  else if pyIsDigit raw then ""
  else raw

/-- The `user_type` computed for a row (`routes.py`, lines 119-121). -/
def rowUserType (ut : Option Nat) (row : List String) : String :=
  match ut with
  | some u => if u < row.length then parse (row.getD u "") else "未知"
  | none => "未知"

/-- The `attachment` computed for a row (`routes.py`, lines 124-140). -/
def rowAttachment (ac : Option Nat) (row : List String) : String :=
  match ac with
  | some a => if a < row.length then extractAttachment (pyStrip (row.getD a "")) else ""
  | none => ""

/-- One iteration of the `for row in data_rows` loop of `upload_csv`
(`routes.py`, lines 111-150): `none` when the row is skipped. -/
def processRow (cc : Nat) (ut ac : Option Nat) (row : List String) :
    Option FeedbackRecord :=
  if row.length ≤ cc then none
  else if pyStrip (row.getD cc "") = "" then none
  else some { user_type := rowUserType ut row
              content := pyStrip (row.getD cc "")
              category := classify (pyStrip (row.getD cc ""))
              attachment := rowAttachment ac row
              original_row := row }

/-- The ingestion pipeline of `upload_csv` after CSV parsing: detect the
columns, default the content column to 0 when unset, and process each data
row (`routes.py`, lines 96-150). -/
def uploadProcess (headers : List String) (dataRows : List (List String)) :
    List FeedbackRecord :=
  let cols := detect headers
  let cc := cols.content.getD 0
  dataRows.filterMap (processRow cc cols.user_type cols.attachment)

/-! ## Lemmas about `pickMax` (Python `max(d, key=d.get)`) -/

theorem pickMax_eq_none {l : List (String × Nat)} : pickMax l = none ↔ l = [] := by
  cases l with
  | nil => simp [pickMax]
  | cons p rest =>
    cases hr : pickMax rest with
    | none => simp [pickMax, hr]
    | some q => simp only [pickMax, hr]; split <;> simp

theorem pickMax_mem : ∀ {l : List (String × Nat)} {q : String × Nat},
    pickMax l = some q → q ∈ l := by
  intro l
  induction l with
  | nil => intro q h; simp [pickMax] at h
  | cons p rest ih =>
    intro q h
    cases hr : pickMax rest with
    | none =>
      simp only [pickMax, hr] at h
      simp at h; simp [h]
    | some q' =>
      simp only [pickMax, hr] at h
      by_cases hlt : p.2 < q'.2
      · rw [if_pos hlt] at h
        have : q' = q := by simpa using h
        exact this ▸ List.mem_cons_of_mem _ (ih hr)
      · rw [if_neg hlt] at h
        have : p = q := by simpa using h
        simp [← this]

theorem pickMax_le : ∀ {l : List (String × Nat)} {q : String × Nat},
    pickMax l = some q → ∀ p ∈ l, p.2 ≤ q.2 := by
  intro l
  induction l with
  | nil => intro q _ p hp; cases hp
  | cons a rest ih =>
    intro q h p hp
    cases hr : pickMax rest with
    | none =>
      simp only [pickMax, hr] at h
      have hrest : rest = [] := pickMax_eq_none.mp hr
      have : a = q := by simpa using h
      subst this
      rcases List.mem_cons.mp hp with heq | hmem
      · exact heq ▸ Nat.le_refl _
      · rw [hrest] at hmem; cases hmem
    | some q' =>
      simp only [pickMax, hr] at h
      rcases List.mem_cons.mp hp with heq | hmem
      · subst heq
        by_cases hlt : p.2 < q'.2
        · rw [if_pos hlt] at h
          have : q' = q := by simpa using h
          exact this ▸ Nat.le_of_lt hlt
        · rw [if_neg hlt] at h
          have : p = q := by simpa using h
          exact this ▸ Nat.le_refl _
      · have hle : p.2 ≤ q'.2 := ih hr p hmem
        by_cases hlt : a.2 < q'.2
        · rw [if_pos hlt] at h
          have : q' = q := by simpa using h
          exact this ▸ hle
        · rw [if_neg hlt] at h
          have : a = q := by simpa using h
          exact this ▸ Nat.le_trans hle (Nat.not_lt.mp hlt)

/-- Function `pickMax` returns the first entry attaining the maximal value, exactly as
Python's `max` over the keys of an insertion-ordered dict. -/
theorem pickMax_first_max {l : List (String × Nat)} {k : Nat} (hk : k < l.length)
    (hmax : ∀ p ∈ l, p.2 ≤ (l.get ⟨k, hk⟩).2)
    (hfirst : ∀ j (hj : j < k), (l.get ⟨j, hj.trans hk⟩).2 < (l.get ⟨k, hk⟩).2) :
    pickMax l = some (l.get ⟨k, hk⟩) := by
  induction l generalizing k with
  | nil => exact absurd hk (by simp)
  | cons p rest ih =>
    cases k with
    | zero =>
      cases hr : pickMax rest with
      | none =>
        show pickMax (p :: rest) = some p
        simp only [pickMax, hr]
      | some q =>
        have hq : q ∈ rest := pickMax_mem hr
        have hqp : q.2 ≤ p.2 := hmax q (List.mem_cons_of_mem _ hq)
        show pickMax (p :: rest) = some p
        simp only [pickMax, hr]
        rw [if_neg (Nat.not_lt.mpr hqp)]
    | succ j =>
      have hjk : j < rest.length := Nat.lt_of_succ_lt_succ hk
      have hm : ∀ q ∈ rest, q.2 ≤ (rest.get ⟨j, hjk⟩).2 := fun q hq =>
        hmax q (List.mem_cons_of_mem _ hq)
      have hf : ∀ i (hi : i < j),
          (rest.get ⟨i, hi.trans hjk⟩).2 < (rest.get ⟨j, hjk⟩).2 := fun i hi =>
        hfirst (i + 1) (Nat.succ_lt_succ hi)
      have hrec := ih hjk hm hf
      show pickMax (p :: rest) = some (rest.get ⟨j, hjk⟩)
      simp only [pickMax, hrec]
      have h0 : p.2 < (rest.get ⟨j, hjk⟩).2 := hfirst 0 (Nat.succ_pos j)
      rw [if_pos h0]

/-! ## Lemmas about `scoresFor` -/

theorem mem_scoresFor_ne_fallback {content : String} {q : String × Nat}
    (h : q ∈ scoresFor content) : q.1 ≠ "其他" := by
  unfold scoresFor at h
  rw [List.mem_filterMap] at h
  obtain ⟨a, ha, hfa⟩ := h
  rw [List.mem_filter] at ha
  have hne : a.1 ≠ "其他" := by simpa using ha.2
  by_cases hs : 0 < hitCount a.2 (strLower content)
  · rw [if_pos hs] at hfa
    have : (a.1, hitCount a.2 (strLower content)) = q := by simpa using hfa
    rw [← this]
    exact hne
  · rw [if_neg hs] at hfa
    cases hfa

theorem scoresFor_nil_iff (content : String) :
    scoresFor content = [] ↔
      ∀ p ∈ CATEGORY_KEYWORDS, p.1 ≠ "其他" → ∀ kw ∈ p.2,
        strIn (strLower kw) (strLower content) = false := by
  unfold scoresFor
  rw [List.filterMap_eq_nil_iff]
  constructor
  · intro h p hp hne kw hkw
    have hmem : p ∈ CATEGORY_KEYWORDS.filter (fun p => !(p.1 == "其他")) := by
      rw [List.mem_filter]
      exact ⟨hp, by simpa using hne⟩
    have hfp := h p hmem
    by_cases hs : 0 < hitCount p.2 (strLower content)
    · rw [if_pos hs] at hfp; cases hfp
    · have h0 : hitCount p.2 (strLower content) = 0 := Nat.eq_zero_of_not_pos hs
      unfold hitCount at h0
      rw [List.length_eq_zero, List.filter_eq_nil_iff] at h0
      simpa using h0 kw hkw
  · intro h p hp
    rw [List.mem_filter] at hp
    have hne : p.1 ≠ "其他" := by simpa using hp.2
    have h0 : hitCount p.2 (strLower content) = 0 := by
      unfold hitCount
      rw [List.length_eq_zero, List.filter_eq_nil_iff]
      intro kw hkw
      simp [h p hp.1 hne kw hkw]
    simp [h0]

theorem hitCount_pos {kws : List String} {t : String}
    (h : ∃ kw ∈ kws, strIn (strLower kw) t = true) : 0 < hitCount kws t := by
  obtain ⟨kw, hkw, hs⟩ := h
  unfold hitCount
  rw [List.length_pos]
  intro hnil
  rw [List.filter_eq_nil_iff] at hnil
  exact absurd hs (by simpa using hnil kw hkw)

/-- If exactly one first-component key of an association list is mapped to
`some` by `f`, the `filterMap` is that single image. -/
theorem filterMap_eq_singleton {γ β : Type} {l : List (String × γ)}
    {f : String × γ → Option β} {X : String} {kws : γ} {b : β}
    (hmem : (X, kws) ∈ l) (hnd : (l.map Prod.fst).Nodup)
    (hX : f (X, kws) = some b)
    (hothers : ∀ p ∈ l, p.1 ≠ X → f p = none) :
    l.filterMap f = [b] := by
  induction l with
  | nil => cases hmem
  | cons p rest ih =>
    rw [List.map_cons, List.nodup_cons] at hnd
    rcases List.mem_cons.mp hmem with heq | hmem'
    · have hpx : X = p.1 := congrArg Prod.fst heq
      have hrest : rest.filterMap f = [] := by
        rw [List.filterMap_eq_nil_iff]
        intro q hq
        refine hothers q (List.mem_cons_of_mem _ hq) ?_
        intro hqx
        apply hnd.1
        rw [← hpx, ← hqx]
        exact List.mem_map_of_mem Prod.fst hq
      rw [heq] at hX
      simp only [List.filterMap_cons, hX, hrest]
    · have hpX : p.1 ≠ X := by
        intro hpx
        apply hnd.1
        rw [hpx]
        have := List.mem_map_of_mem Prod.fst hmem'
        simpa using this
      simp only [List.filterMap_cons, hothers p (List.mem_cons_self p rest) hpX]
      exact ih hmem' hnd.2 (fun q hq hqX => hothers q (List.mem_cons_of_mem _ hq) hqX)

theorem strIn_empty_hay {n : String} (h : strIn n "" = true) : n = "" := by
  have h2 : n.data.isEmpty = true := h
  cases n with
  | mk data =>
    rw [List.isEmpty_iff] at h2
    simp only at h2
    rw [h2]

/-- Every keyword in the classifier taxonomy is a non-empty string. -/
theorem category_keywords_ne_empty :
    ∀ p ∈ CATEGORY_KEYWORDS, ∀ kw ∈ p.2, kw ≠ "" := by decide

/-- C1: for every content string, when several non-fallback categories share
the maximal positive keyword-hit score, `classify` returns the category whose
entry comes first in `scoresFor`, which lists scoring categories in taxonomy
definition order — first-defined-category-wins.  Determinism of repeated
calls is immediate because `classify` is a pure function of `content` and the
fixed taxonomy. -/
theorem classify_tiebreak_first (content : String) (hne : content ≠ "")
    (k : Nat) (hk : k < (scoresFor content).length)
    (hmax : ∀ p ∈ scoresFor content, p.2 ≤ ((scoresFor content).get ⟨k, hk⟩).2)
    (hfirst : ∀ j (hj : j < k),
      ((scoresFor content).get ⟨j, hj.trans hk⟩).2 <
        ((scoresFor content).get ⟨k, hk⟩).2) :
    classify content = ((scoresFor content).get ⟨k, hk⟩).1 := by
  have h := pickMax_first_max hk hmax hfirst
  simp [classify, hne, h]

/-- Witness for C1: `"如何网络"` scores 1 for both `功能使用问题` (via `如何`)
and `网络连接异常` (via `网络`); the first-defined category wins. -/
theorem classify_tiebreak_first_witness : classify "如何网络" = "功能使用问题" := by
  rw [classify_tiebreak_first "如何网络" (by decide) 0 (by decide) (by decide)
    (fun j hj => absurd hj (Nat.not_lt_zero j))]
  decide

/-- C3: `classify` returns the fallback category `其他` iff the content is
empty or no keyword of any non-fallback category occurs (case-insensitively)
in it; otherwise it returns a non-fallback category attaining the maximal
positive score. -/
theorem classify_fallback_iff (content : String) :
    (classify content = "其他" ↔
      (content = "" ∨ ∀ p ∈ CATEGORY_KEYWORDS, p.1 ≠ "其他" → ∀ kw ∈ p.2,
        strIn (strLower kw) (strLower content) = false))
    ∧ (classify content ≠ "其他" →
        ∃ m, (classify content, m) ∈ scoresFor content ∧
          ∀ p ∈ scoresFor content, p.2 ≤ m) := by
  by_cases hc : content = ""
  · constructor
    · simp [classify, hc]
    · intro hcl
      exact absurd (by simp [classify, hc]) hcl
  · cases hp : pickMax (scoresFor content) with
    | none =>
      have hnil : scoresFor content = [] := pickMax_eq_none.mp hp
      have hcl : classify content = "其他" := by simp [classify, hc, hp]
      constructor
      · rw [hcl]
        simp only [true_iff]
        exact Or.inr ((scoresFor_nil_iff content).mp hnil)
      · intro hne; exact absurd hcl hne
    | some q =>
      have hcl : classify content = q.1 := by simp [classify, hc, hp]
      have hqmem : q ∈ scoresFor content := pickMax_mem hp
      have hqne : q.1 ≠ "其他" := mem_scoresFor_ne_fallback hqmem
      constructor
      · rw [hcl]
        constructor
        · intro h; exact absurd h hqne
        · intro h
          rcases h with h | h
          · exact absurd h hc
          · have : scoresFor content = [] := (scoresFor_nil_iff content).mpr h
            rw [this] at hqmem
            cases hqmem
      · intro _
        refine ⟨q.2, ?_, ?_⟩
        · rw [hcl]
          simpa using hqmem
        · exact pickMax_le hp

/-- Witness for C3 at concrete inputs. -/
theorem classify_fallback_iff_witness : classify "" = "其他" :=
  (classify_fallback_iff "").1.mpr (Or.inl rfl)

/-- C8: if the content contains (case-insensitively) at least one keyword of
non-fallback category `X` and no keyword of any other non-fallback category,
then `classify` returns `X`. -/
theorem classify_exclusive (content X : String) (kws : List String)
    (hmem : (X, kws) ∈ CATEGORY_KEYWORDS) (hX : X ≠ "其他")
    (hhit : ∃ kw ∈ kws, strIn (strLower kw) (strLower content) = true)
    (hothers : ∀ p ∈ CATEGORY_KEYWORDS, p.1 ≠ X → ∀ kw ∈ p.2,
      strIn (strLower kw) (strLower content) = false) :
    classify content = X := by
  -- the content is non-empty, since the taxonomy has no empty keyword
  obtain ⟨kw, hkw, hs⟩ := hhit
  have hcne : content ≠ "" := by
    intro hc
    have hkne : kw ≠ "" := category_keywords_ne_empty (X, kws) hmem kw hkw
    rw [hc] at hs
    have hlow : strLower kw = "" := strIn_empty_hay hs
    have hdata : kw.data = [] := by
      have hmapnil : kw.data.map Char.toLower = [] := congrArg String.data hlow
      exact List.map_eq_nil_iff.mp hmapnil
    exact hkne (String.ext hdata)
  -- the scores dict is the singleton {X: hitCount kws}
  have hpos : 0 < hitCount kws (strLower content) := hitCount_pos ⟨kw, hkw, hs⟩
  have hmemf : (X, kws) ∈ CATEGORY_KEYWORDS.filter (fun p => !(p.1 == "其他")) := by
    rw [List.mem_filter]
    exact ⟨hmem, by simpa using hX⟩
  have hnd : ((CATEGORY_KEYWORDS.filter (fun p => !(p.1 == "其他"))).map Prod.fst).Nodup := by
    decide
  have hXs : (fun p : String × List String =>
      let s := hitCount p.2 (strLower content)
      if 0 < s then some (p.1, s) else none) (X, kws) =
      some (X, hitCount kws (strLower content)) := by
    simp only [if_pos hpos]
  have hz : ∀ p ∈ CATEGORY_KEYWORDS.filter (fun p => !(p.1 == "其他")), p.1 ≠ X →
      (fun p : String × List String =>
        let s := hitCount p.2 (strLower content)
        if 0 < s then some (p.1, s) else none) p = none := by
    intro p hp hpX
    rw [List.mem_filter] at hp
    have h0 : hitCount p.2 (strLower content) = 0 := by
      unfold hitCount
      rw [List.length_eq_zero, List.filter_eq_nil_iff]
      intro kw' hkw'
      simp [hothers p hp.1 hpX kw' hkw']
    simp [h0]
  have hsingle : scoresFor content = [(X, hitCount kws (strLower content))] := by
    unfold scoresFor
    exact filterMap_eq_singleton hmemf hnd hXs hz
  simp [classify, hcne, hsingle, pickMax]

/-- Witness for C8: `"网络"` hits only the `网络连接异常` keyword list. -/
theorem classify_exclusive_witness : classify "网络" = "网络连接异常" :=
  classify_exclusive "网络" "网络连接异常"
    ["网络", "连接", "断开", "超时", "加载", "刷新", "联网", "网速", "掉线", "连不上", "服务器", "请求失败"]
    (by decide) (by decide) (by decide) (by decide)

/-! ## UserTypeParser: claim C5 -/

/-- C5: `parse` returns `未知` on the empty string; otherwise `会员` when any
member keyword occurs (case-insensitively) — even if a normal-user keyword
also occurs, because the member check runs strictly first; otherwise
`普通用户` when any normal-user keyword occurs; otherwise the input
unchanged. -/
theorem parse_spec (s : String) :
    (s = "" → parse s = "未知")
    ∧ (s ≠ "" → (∃ kw ∈ MEMBER_KEYWORDS, strIn kw (strLower s) = true) →
        parse s = "会员")
    ∧ (s ≠ "" → (∀ kw ∈ MEMBER_KEYWORDS, strIn kw (strLower s) = false) →
        (∃ kw ∈ NORMAL_KEYWORDS, strIn kw (strLower s) = true) →
        parse s = "普通用户")
    ∧ (s ≠ "" → (∀ kw ∈ MEMBER_KEYWORDS, strIn kw (strLower s) = false) →
        (∀ kw ∈ NORMAL_KEYWORDS, strIn kw (strLower s) = false) →
        parse s = s) := by
  refine ⟨?_, ?_, ?_, ?_⟩
  · intro h
    simp [parse, h]
  · intro hne hex
    have hm : MEMBER_KEYWORDS.any (fun kw => strIn kw (strLower s)) = true :=
      List.any_eq_true.mpr hex
    simp [parse, hne, hm]
  · intro hne hall hex
    have hm : MEMBER_KEYWORDS.any (fun kw => strIn kw (strLower s)) = false := by
      rw [List.any_eq_false]
      intro kw hkw
      simp [hall kw hkw]
    have hn : NORMAL_KEYWORDS.any (fun kw => strIn kw (strLower s)) = true :=
      List.any_eq_true.mpr hex
    simp [parse, hne, hm, hn]
  · intro hne hallm halln
    have hm : MEMBER_KEYWORDS.any (fun kw => strIn kw (strLower s)) = false := by
      rw [List.any_eq_false]
      intro kw hkw
      simp [hallm kw hkw]
    have hn : NORMAL_KEYWORDS.any (fun kw => strIn kw (strLower s)) = false := by
      rw [List.any_eq_false]
      intro kw hkw
      simp [halln kw hkw]
    simp [parse, hne, hm, hn]

/-- Witness for C5: `"付费free"` contains a member keyword (`付费`) and a
normal-user keyword (`free`); the member check wins. -/
theorem parse_spec_witness : parse "付费free" = "会员" :=
  (parse_spec "付费free").2.1 (by decide) (by decide)

/-! ## KanbanCategoryGenerator: claims C7 and C9 -/

/-- Python `scores[name] = scores.get(name, 0) + sc` appends when `name` is
not yet a key. -/
theorem addScore_fresh {acc : List (String × Nat)} {name : String} {sc : Nat}
    (h : ∀ q ∈ acc, q.1 ≠ name) : addScore acc name sc = acc ++ [(name, sc)] := by
  induction acc with
  | nil => rfl
  | cons q rest ih =>
    obtain ⟨n, v⟩ := q
    have hq : n ≠ name := h (n, v) (List.mem_cons_self _ _)
    simp only [addScore]
    rw [if_neg hq, ih (fun r hr => h r (List.mem_cons_of_mem _ hr))]
    simp

/-- When every label occurs at most once, the dict accumulation of the
scoring loop is the in-order list of positive entries. -/
theorem foldl_kanbanStep (t : String) :
    ∀ (l : List (List String × String)) (acc : List (String × Nat)),
      (l.map Prod.snd).Nodup →
      (∀ p ∈ l, ∀ q ∈ acc, q.1 ≠ p.2) →
      l.foldl (kanbanStep t) acc = acc ++ l.filterMap (kanbanEntry t) := by
  intro l
  induction l with
  | nil => intro acc _ _; simp
  | cons p rest ih =>
    intro acc hnd hdisj
    rw [List.map_cons, List.nodup_cons] at hnd
    by_cases hs : 0 < hitCount p.1 t
    · have h1 : kanbanStep t acc p = acc ++ [(p.2, hitCount p.1 t)] := by
        unfold kanbanStep
        rw [if_pos hs]
        exact addScore_fresh (fun q hq => hdisj p (List.mem_cons_self _ _) q hq)
      have h2 : kanbanEntry t p = some (p.2, hitCount p.1 t) := by
        unfold kanbanEntry
        rw [if_pos hs]
      have hdisj' : ∀ r ∈ rest, ∀ q ∈ acc ++ [(p.2, hitCount p.1 t)], q.1 ≠ r.2 := by
        intro r hr q hq
        rcases List.mem_append.mp hq with hq | hq
        · exact hdisj r (List.mem_cons_of_mem _ hr) q hq
        · have : q = (p.2, hitCount p.1 t) := by simpa using hq
          rw [this]
          intro hcontra
          apply hnd.1
          have hc2 : p.2 = r.2 := hcontra
          rw [hc2]
          exact List.mem_map_of_mem Prod.snd hr
      simp only [List.foldl_cons, List.filterMap_cons, h1, h2]
      rw [ih (acc ++ [(p.2, hitCount p.1 t)]) hnd.2 hdisj']
      simp
    · have h1 : kanbanStep t acc p = acc := by
        unfold kanbanStep
        rw [if_neg hs]
      have h2 : kanbanEntry t p = none := by
        unfold kanbanEntry
        rw [if_neg hs]
      simp only [List.foldl_cons, List.filterMap_cons, h1, h2]
      exact ih acc hnd.2 (fun r hr q hq => hdisj r (List.mem_cons_of_mem _ hr) q hq)

/-- Each label of `KEYWORD_TO_CATEGORY` has exactly one keyword-set, so the
accumulated scores dict equals the in-order list of positive entries. -/
theorem kanbanScores_eq (t : String) : kanbanScores t = kanbanOrderedScores t := by
  unfold kanbanScores kanbanOrderedScores
  rw [foldl_kanbanStep t KEYWORD_TO_CATEGORY [] (by decide) (fun p _ q hq => absurd hq (List.not_mem_nil q))]
  simp

/-- C7: the suggester returns the fixed default `新分类` on an empty contents
list, and the fixed fallback `重点反馈` (the constant returned by the stubbed
key-phrase extraction) for a non-empty contents list whose space-joined
lower-cased blob contains no keyword of any keyword-set. -/
theorem suggest_defaults (contents : List String) :
    generate_category_name [] = "新分类"
    ∧ (contents ≠ [] →
        (∀ p ∈ KEYWORD_TO_CATEGORY, ∀ kw ∈ p.1,
          strIn (strLower kw) (allText contents) = false) →
        generate_category_name contents = "重点反馈") := by
  refine ⟨rfl, ?_⟩
  intro hne hall
  have h0 : kanbanOrderedScores (allText contents) = [] := by
    unfold kanbanOrderedScores
    rw [List.filterMap_eq_nil_iff]
    intro p hp
    unfold kanbanEntry
    have hz : hitCount p.1 (allText contents) = 0 := by
      unfold hitCount
      rw [List.length_eq_zero, List.filter_eq_nil_iff]
      intro kw hkw
      simp [hall p hp kw hkw]
    rw [if_neg (by omega)]
  have h1 : kanbanScores (allText contents) = [] := (kanbanScores_eq _).trans h0
  simp [generate_category_name, hne, h1, pickMax, extract_key_phrase]

/-- Witness for C7: no kanban keyword occurs in `"zzz"`. -/
theorem suggest_defaults_witness : generate_category_name ["zzz"] = "重点反馈" :=
  (suggest_defaults ["zzz"]).2 (by decide) (by decide)

/-- C9: for a non-empty contents list, when several labels tie at the maximal
positive accumulated score, `generate_category_name` returns the label whose
(unique) scoring keyword-set appears earliest in the definition order of
`KEYWORD_TO_CATEGORY` — the entries of `kanbanOrderedScores` are listed in
that order. -/
theorem suggest_tiebreak_first (contents : List String) (hne : contents ≠ [])
    (k : Nat) (hk : k < (kanbanOrderedScores (allText contents)).length)
    (hmax : ∀ p ∈ kanbanOrderedScores (allText contents),
      p.2 ≤ ((kanbanOrderedScores (allText contents)).get ⟨k, hk⟩).2)
    (hfirst : ∀ j (hj : j < k),
      ((kanbanOrderedScores (allText contents)).get ⟨j, hj.trans hk⟩).2 <
        ((kanbanOrderedScores (allText contents)).get ⟨k, hk⟩).2) :
    generate_category_name contents =
      ((kanbanOrderedScores (allText contents)).get ⟨k, hk⟩).1 := by
  have h := pickMax_first_max hk hmax hfirst
  have he := kanbanScores_eq (allText contents)
  simp [generate_category_name, hne, he, h]

/-- Witness for C9: `"bug 慢"` scores 1 for both `技术问题` (via `bug`) and
`性能问题` (via `慢`); the first-defined keyword-set's label wins. -/
theorem suggest_tiebreak_first_witness : generate_category_name ["bug 慢"] = "技术问题" := by
  rw [suggest_tiebreak_first ["bug 慢"] (by decide) 0 (by decide) (by decide)
    (fun j hj => absurd hj (Nat.not_lt_zero j))]
  decide

/-! ## CSVColumnDetector: claims C2 and C4 -/

/-- Invariant of the detection loop for one role, parametrized by the field
accessor `f` and the assignment condition `g`: a set index was either already
set, or points (relative to the running index `i`) at a header satisfying
`g`. -/
theorem detectAux_field (f : ColumnRoleMap → Option Nat) (g : String → Bool)
    (hstep : ∀ i h st, f (detectStep i h st) =
      match f st with
      | some c => some c
      | none => if g h then some i else none) :
    ∀ (hs : List String) (i : Nat) (st : ColumnRoleMap) (j : Nat),
      f (detectAux i hs st) = some j →
      f st = some j ∨
        ∃ k, ∃ hk : k < hs.length, j = i + k ∧ g (hs.get ⟨k, hk⟩) = true := by
  intro hs
  induction hs with
  | nil => intro i st j h; exact Or.inl h
  | cons hd tl ih =>
    intro i st j h
    rcases ih (i + 1) (detectStep i hd st) j h with hst | ⟨k, hk, hjk, hg⟩
    · rw [hstep i hd st] at hst
      cases hfs : f st with
      | some c =>
        simp only [hfs] at hst
        exact Or.inl hst
      | none =>
        simp only [hfs] at hst
        by_cases hg : g hd
        · rw [if_pos hg] at hst
          have hij : i = j := by simpa using hst
          exact Or.inr ⟨0, by simp, by omega, hg⟩
        · rw [if_neg hg] at hst
          cases hst
    · exact Or.inr ⟨k + 1, Nat.succ_lt_succ hk, by omega, hg⟩

/-- C4: every role index returned by `detect` is either unset or a valid
index into the header row. -/
theorem detect_indices_in_range (headers : List String) :
    (∀ j, (detect headers).content = some j → j < headers.length)
    ∧ (∀ j, (detect headers).user_type = some j → j < headers.length)
    ∧ (∀ j, (detect headers).attachment = some j → j < headers.length) := by
  refine ⟨?_, ?_, ?_⟩
  · intro j h
    rcases detectAux_field (fun st => st.content) contentHit (fun _ _ _ => rfl)
      headers 0 ⟨none, none, none⟩ j h with hst | ⟨k, hk, hjk, _⟩
    · cases hst
    · omega
  · intro j h
    rcases detectAux_field (fun st => st.user_type) userTypeHit (fun _ _ _ => rfl)
      headers 0 ⟨none, none, none⟩ j h with hst | ⟨k, hk, hjk, _⟩
    · cases hst
    · omega
  · intro j h
    rcases detectAux_field (fun st => st.attachment) attachmentHit (fun _ _ _ => rfl)
      headers 0 ⟨none, none, none⟩ j h with hst | ⟨k, hk, hjk, _⟩
    · cases hst
    · omega

/-- Witness for C4: a concrete header row with a detected content column. -/
theorem detect_indices_in_range_witness :
    (detect ["反馈内容"]).content = some 0 ∧ 0 < (["反馈内容"] : List String).length :=
  ⟨by decide, (detect_indices_in_range ["反馈内容"]).1 0 (by decide)⟩

/-- Counterexample to C2: the attachment role does not match
case-insensitively against the header.  (1) `detect` assigns the attachment
role to the header `"附件 列表"` (the cleaned header, with the space removed,
contains the keyword `附件列表`), yet no attachment keyword occurs in the
header itself, case-insensitively or otherwise.  (2) The header
`"ATTACHMENT"` contains the keyword `attachment` case-insensitively, yet the
attachment role stays unset, because the attachment comparison is
case-sensitive. -/
theorem detect_attachment_not_case_insensitive :
    ((detect ["附件 列表"]).attachment = some 0
      ∧ ∀ kw ∈ ATTACHMENT_KEYWORDS, strIn (strLower kw) (strLower "附件 列表") = false)
    ∧ ((detect ["ATTACHMENT"]).attachment = none
      ∧ strIn (strLower "attachment") (strLower "ATTACHMENT") = true) := by
  decide

/-- C2 as amended: a header at a set index satisfies the role's matching
rule as the code implements it — for the content role, the lower-cased
stripped header contains a content keyword and no exclusion keyword; for the
user-type role, it contains a user-type keyword; for the attachment role,
the whitespace-cleaned header or the raw header contains an attachment
keyword case-sensitively, and the cleaned header contains no exclusion
keyword case-sensitively. -/
theorem detect_role_headers_match (headers : List String) :
    (∀ j, ∀ hj : j < headers.length, (detect headers).content = some j →
      (∃ kw ∈ CONTENT_KEYWORDS, strIn kw (headerLower (headers.get ⟨j, hj⟩)) = true)
      ∧ ∀ ex ∈ EXCLUDE_KEYWORDS, strIn ex (headerLower (headers.get ⟨j, hj⟩)) = false)
    ∧ (∀ j, ∀ hj : j < headers.length, (detect headers).user_type = some j →
      ∃ kw ∈ USER_TYPE_KEYWORDS, strIn kw (headerLower (headers.get ⟨j, hj⟩)) = true)
    ∧ (∀ j, ∀ hj : j < headers.length, (detect headers).attachment = some j →
      (∃ kw ∈ ATTACHMENT_KEYWORDS,
        (strIn kw (cleanHeader (headers.get ⟨j, hj⟩)) || strIn kw (headers.get ⟨j, hj⟩)) = true)
      ∧ ∀ ex ∈ ATTACHMENT_EXCLUDE_KEYWORDS,
        strIn ex (cleanHeader (headers.get ⟨j, hj⟩)) = false) := by
  refine ⟨?_, ?_, ?_⟩
  · intro j hj h
    rcases detectAux_field (fun st => st.content) contentHit (fun _ _ _ => rfl)
      headers 0 ⟨none, none, none⟩ j h with hst | ⟨k, hk, hjk, hg⟩
    · cases hst
    · have hjk' : j = k := by omega
      subst hjk'
      unfold contentHit at hg
      rw [Bool.and_eq_true] at hg
      constructor
      · exact List.any_eq_true.mp hg.2
      · have hse : shouldExclude (headers.get ⟨j, hj⟩) = false := by
          simpa using hg.1
        unfold shouldExclude at hse
        rw [List.any_eq_false] at hse
        intro ex hexm
        simpa using hse ex hexm
  · intro j hj h
    rcases detectAux_field (fun st => st.user_type) userTypeHit (fun _ _ _ => rfl)
      headers 0 ⟨none, none, none⟩ j h with hst | ⟨k, hk, hjk, hg⟩
    · cases hst
    · have hjk' : j = k := by omega
      subst hjk'
      unfold userTypeHit at hg
      exact List.any_eq_true.mp hg
  · intro j hj h
    rcases detectAux_field (fun st => st.attachment) attachmentHit (fun _ _ _ => rfl)
      headers 0 ⟨none, none, none⟩ j h with hst | ⟨k, hk, hjk, hg⟩
    · cases hst
    · have hjk' : j = k := by omega
      subst hjk'
      unfold attachmentHit at hg
      rw [Bool.and_eq_true] at hg
      constructor
      · exact List.any_eq_true.mp hg.2
      · have hse : ATTACHMENT_EXCLUDE_KEYWORDS.any
            (fun ex => strIn ex (cleanHeader (headers.get ⟨j, hj⟩))) = false := by
          simpa using hg.1
        rw [List.any_eq_false] at hse
        intro ex hexm
        simpa using hse ex hexm

/-- Witness for the amended C2 at a concrete header row. -/
theorem detect_role_headers_match_witness :
    ∃ kw ∈ USER_TYPE_KEYWORDS,
      strIn kw (headerLower ((["用户类型"] : List String).get ⟨0, by decide⟩)) = true :=
  (detect_role_headers_match ["用户类型"]).2.1 0 (by decide) (by decide)

/-! ## Ingestion: claims C6 and C10 -/

/-- A row produces a record exactly when it reaches past the content column
and its content cell trims to a non-empty string; the record's content is
that trimmed cell. -/
theorem processRow_content {cc : Nat} {ut ac : Option Nat} {row : List String}
    {r : FeedbackRecord} (h : processRow cc ut ac row = some r) :
    cc < row.length ∧ r.content = pyStrip (row.getD cc "") ∧ r.content ≠ "" := by
  unfold processRow at h
  by_cases h1 : row.length ≤ cc
  · rw [if_pos h1] at h; cases h
  · rw [if_neg h1] at h
    by_cases h2 : pyStrip (row.getD cc "") = ""
    · rw [if_pos h2] at h; cases h
    · rw [if_neg h2] at h
      have hr := (Option.some.inj h).symm
      refine ⟨by omega, ?_, ?_⟩
      · rw [hr]
      · rw [hr]; exact h2

theorem processRow_isSome (cc : Nat) (ut ac : Option Nat) (row : List String) :
    (processRow cc ut ac row).isSome =
      (decide (cc < row.length) && !(pyStrip (row.getD cc "") == "")) := by
  unfold processRow
  by_cases h1 : row.length ≤ cc
  · rw [if_pos h1]
    have hn : ¬cc < row.length := by omega
    simp [hn]
  · rw [if_neg h1]
    have hp : cc < row.length := by omega
    by_cases h2 : pyStrip (row.getD cc "") = ""
    · rw [if_pos h2]
      have hb : (pyStrip (row.getD cc "") == "") = true := by rw [h2]; decide
      rw [hb]
      simp
    · rw [if_neg h2]
      have hb : (pyStrip (row.getD cc "") == "") = false := by
        rw [beq_eq_false_iff_ne]
        exact h2
      rw [hb]
      simp [hp]

theorem length_filterMap_eq_length_filter {α β : Type} (f : α → Option β)
    (l : List α) :
    (l.filterMap f).length = (l.filter (fun a => (f a).isSome)).length := by
  induction l with
  | nil => rfl
  | cons a tl ih =>
    cases hf : f a with
    | none => simp [List.filterMap_cons, List.filter_cons, hf, ih]
    | some b => simp [List.filterMap_cons, List.filter_cons, hf, ih]

/-- C6: in the ingestion pipeline, an unset content column defaults to 0; a
row shorter than the content column yields no record; every emitted record
has non-empty trimmed content; and exactly one record is emitted per data
row that reaches the content column with a non-empty trimmed cell. -/
theorem uploadProcess_spec (headers : List String) (rows : List (List String)) :
    ((detect headers).content = none → (detect headers).content.getD 0 = 0)
    ∧ (∀ row ∈ rows, row.length < (detect headers).content.getD 0 →
        processRow ((detect headers).content.getD 0) (detect headers).user_type
          (detect headers).attachment row = none)
    ∧ (∀ r ∈ uploadProcess headers rows, r.content ≠ "")
    ∧ (uploadProcess headers rows).length =
        (rows.filter (fun row =>
          decide ((detect headers).content.getD 0 < row.length) &&
          !(pyStrip (row.getD ((detect headers).content.getD 0) "") == ""))).length := by
  refine ⟨?_, ?_, ?_, ?_⟩
  · intro h
    simp [h]
  · intro row _ hlen
    unfold processRow
    rw [if_pos (by omega)]
  · intro r hr
    simp only [uploadProcess] at hr
    rw [List.mem_filterMap] at hr
    obtain ⟨row, _, hrow⟩ := hr
    exact (processRow_content hrow).2.2
  · simp only [uploadProcess]
    rw [length_filterMap_eq_length_filter]
    congr 1
    apply List.filter_congr
    intro row _
    exact processRow_isSome _ _ _ row

/-- Witness for C6: with headers `["a","反馈内容"]` the content column is 1;
the empty row is skipped and only the row with non-empty content emits a
record. -/
theorem uploadProcess_spec_witness :
    processRow ((detect ["a", "反馈内容"]).content.getD 0)
      (detect ["a", "反馈内容"]).user_type (detect ["a", "反馈内容"]).attachment [] = none
    ∧ (uploadProcess ["a", "反馈内容"] [["x", "网络"], []]).length = 1 := by
  constructor
  · exact (uploadProcess_spec ["a", "反馈内容"] [["x", "网络"], []]).2.1 []
      (by decide) (by decide)
  · rw [(uploadProcess_spec ["a", "反馈内容"] [["x", "网络"], []]).2.2.2]
    decide

/-- The trichotomy of the attachment-extraction logic over the stripped raw
cell: URL lines win; otherwise an all-digit cell is dropped; otherwise the
cell is kept verbatim. -/
theorem extractAttachment_spec (raw : String) :
    (urlLines raw ≠ [] → extractAttachment raw = joinNl (urlLines raw))
    ∧ (urlLines raw = [] → pyIsDigit raw = true → extractAttachment raw = "")
    ∧ (urlLines raw = [] → pyIsDigit raw = false → extractAttachment raw = raw) := by
  have hempty : urlLines "" = ([] : List String) := rfl
  refine ⟨?_, ?_, ?_⟩
  · intro hurls
    unfold extractAttachment
    cases hu : urlLines raw with
    | nil => exact absurd hu hurls
    | cons x xs =>
      have hrne : raw ≠ "" := by
        intro h0
        rw [h0, hempty] at hu
        cases hu
      rw [if_neg hrne]
      simp
  · intro hurls hdig
    unfold extractAttachment
    have hrne : raw ≠ "" := by
      intro h0
      rw [h0] at hdig
      exact absurd hdig (by decide)
    rw [if_neg hrne, hurls]
    simp [hdig]
  · intro hurls hdig
    unfold extractAttachment
    by_cases h0 : raw = ""
    · rw [if_pos h0, h0]
    · rw [if_neg h0, hurls]
      simp [hdig]

/-- C10: for a data row whose attachment cell is present, the emitted
record's attachment is the newline-join of the stripped URL lines when any
exist; otherwise empty when the stripped cell is all digits; otherwise the
stripped cell verbatim. -/
theorem attachment_extraction (cc a : Nat) (ut : Option Nat)
    (row : List String) (r : FeedbackRecord) (ha : a < row.length)
    (hr : processRow cc ut (some a) row = some r) :
    (urlLines (pyStrip (row.getD a "")) ≠ [] →
      r.attachment = joinNl (urlLines (pyStrip (row.getD a ""))))
    ∧ (urlLines (pyStrip (row.getD a "")) = [] →
        pyIsDigit (pyStrip (row.getD a "")) = true → r.attachment = "")
    ∧ (urlLines (pyStrip (row.getD a "")) = [] →
        pyIsDigit (pyStrip (row.getD a "")) = false →
        r.attachment = pyStrip (row.getD a "")) := by
  have hatt : r.attachment = extractAttachment (pyStrip (row.getD a "")) := by
    unfold processRow at hr
    by_cases h1 : row.length ≤ cc
    · rw [if_pos h1] at hr; cases hr
    · rw [if_neg h1] at hr
      by_cases h2 : pyStrip (row.getD cc "") = ""
      · rw [if_pos h2] at hr; cases hr
      · rw [if_neg h2] at hr
        have heq := (Option.some.inj hr).symm
        rw [heq]
        show rowAttachment (some a) row = _
        simp only [rowAttachment]
        rw [if_pos ha]
  have hspec := extractAttachment_spec (pyStrip (row.getD a ""))
  exact ⟨fun h => hatt.trans (hspec.1 h),
         fun h1 h2 => hatt.trans (hspec.2.1 h1 h2),
         fun h1 h2 => hatt.trans (hspec.2.2 h1 h2)⟩

/-- Witness for C10: an attachment cell mixing a count, a URL line with
trailing whitespace, and free text keeps exactly the stripped URL line. -/
theorem attachment_extraction_witness :
    ({user_type := "未知", content := "内容x", category := "其他",
      attachment := "http://a.com",
      original_row := ["内容x", "3\nhttp://a.com \n其他"]} : FeedbackRecord).attachment =
      joinNl (urlLines (pyStrip ((["内容x", "3\nhttp://a.com \n其他"] : List (String)).getD 1 ""))) :=
  (attachment_extraction 0 1 none ["内容x", "3\nhttp://a.com \n其他"]
    {user_type := "未知", content := "内容x", category := "其他",
     attachment := "http://a.com",
     original_row := ["内容x", "3\nhttp://a.com \n其他"]}
    (by decide) (by decide)).1 (by decide)

end Feedback
